import Mathlib

/-!
# Gas relayer service (`gas-relayer/src/service.js`)

A shallow embedding of the message relay orchestrator: the balance guard
`verifyBalance`, the `setup:complete` subscription fan-out, the reply closure
`replyFunction`, the decoder `extractInput` and the subscription callback
registered by the `server:listen` listener.

Conventions of the embedding.

* JavaScript values that reach the service are values of `JsVal`.  JSON has no
  functions, so no value of `JsVal` is callable.  Numbers are integers, rendered
  in decimal; strings are Lean strings, whose characters coincide with
  JavaScript's UTF-16 code units on the Basic Multilingual Plane (in particular
  on hexadecimal and ASCII text).
* A call that may raise returns an `Option`; `none` is the raised exception.
* Calls into web3, the console, the process and the transaction processor are
  recorded, in program order, as a list of `Effect`s.
* An `async` function is split at its `await`: what runs before the call
  returns, and the continuation that runs once the awaited promise resolves.
-/

namespace GasRelayer

/-! ## JavaScript values -/

/-- A JavaScript value as produced by `JSON.parse`, plus `undefined`. -/
inductive JsVal where
  | undefined
  | null
  | bool (b : Bool)
  | num (n : Int)
  | str (s : String)
  | arr (items : List JsVal)
  | obj (fields : List (String × JsVal))

namespace JsVal

/-- Own property of an object literal, first binding of the key. -/
def own : List (String × JsVal) → String → Option JsVal
  | [], _ => none
  | (k, v) :: rest, key => if k = key then some v else own rest key

/-- Property read `v.key` for a key that no built-in prototype defines
(`contract`, `address`, `action`, `encodedFunctionCall`, `token`, `gasPrice`).
Reading a property of `null` or `undefined` raises a TypeError (`none`); a
property that is absent reads as `undefined`. -/
def get (v : JsVal) (key : String) : Option JsVal :=
  match v with
  | .undefined => none
  | .null => none
  | .obj fields => some ((own fields key).getD .undefined)
  | _ => some .undefined

/-- Conversion to a string as performed by `+` with a string operand and by
loose equality with a string: primitives by `ToString`, arrays by
`Array.prototype.join` with a comma, objects by `Object.prototype.toString`.
An object that carries an own `toString` property (never callable) has no
primitive value: the conversion raises a TypeError (`none`). -/
def toStr : JsVal → Option String
  | .undefined => some "undefined"
  | .null => some "null"
  | .bool true => some "true"
  | .bool false => some "false"
  | .num n => some (toString n)
  | .str s => some s
  | .arr items => join items
  | .obj fields =>
    match own fields "toString" with
    | some _ => none
    | none => some "[object Object]"
where
  /-- Comma-joined elements; `null` and `undefined` elements render empty. -/
  join : List JsVal → Option String
    | [] => some ""
    | .undefined :: rest => tail "" rest
    | .null :: rest => tail "" rest
    | x :: rest =>
      match toStr x with
      | none => none
      | some s => tail s rest
  /-- The text of the elements after the first, each preceded by a comma. -/
  tail (first : String) : List JsVal → Option String
    | [] => some first
    | .undefined :: rest => tail (first ++ ",") rest
    | .null :: rest => tail (first ++ ",") rest
    | x :: rest =>
      match toStr x with
      | none => none
      | some s => tail (first ++ "," ++ s) rest

/-- Loose equality `v == word` against a string literal that is not numeric
(`'transaction'`, `'availability'`): a string compares by content, a number,
a boolean, `null` and `undefined` are never equal to it, an array or object is
first converted to its primitive string, which may raise (`none`). -/
def looseEq (v : JsVal) (word : String) : Option Bool :=
  match v with
  | .str s => some (decide (s = word))
  | .arr items =>
    match toStr (.arr items) with
    | none => none
    | some s => some (decide (s = word))
  | .obj fields =>
    match toStr (.obj fields) with
    | none => none
    | some s => some (decide (s = word))
  | _ => some false

/-- Strict equality `v === word` against a string literal, as used by `switch`. -/
def strictEq (v : JsVal) (word : String) : Bool :=
  match v with
  | .str s => decide (s = word)
  | _ => false

/-- The part of a list from index `start` up to, not including, `stop`. -/
def sliceList {α : Type} (l : List α) (start : Nat) (stop : Option Nat) : List α :=
  match stop with
  | some e => (l.take e).drop start
  | none => l.drop start

/-- Method call `v.slice(start, stop)` with non-negative indices.  Strings and
arrays have the method; calling it on anything else raises a TypeError. -/
def slice (v : JsVal) (start : Nat) (stop : Option Nat) : Option JsVal :=
  match v with
  | .str s => some (.str (String.mk (sliceList s.data start stop)))
  | .arr items => some (.arr (sliceList items start stop))
  | _ => none

/-- String concatenation `pre + v` with a string on the left. -/
def concat (pre : String) (v : JsVal) : Option String :=
  match toStr v with
  | none => none
  | some s => some (pre ++ s)

end JsVal

/-! ## `JSON.stringify` -/

namespace Json

/-- Lower-case hexadecimal digit of a number below sixteen. -/
def hexDigit (n : Nat) : Char :=
  if n < 10 then Char.ofNat (48 + n) else Char.ofNat (87 + n)

/-- Escape of one character inside a JSON string literal. -/
def escape (c : Char) : String :=
  if c.toNat = 8 then "\\b"
  else if c.toNat = 9 then "\\t"
  else if c.toNat = 10 then "\\n"
  else if c.toNat = 12 then "\\f"
  else if c.toNat = 13 then "\\r"
  else if c.toNat = 34 then "\\\""
  else if c.toNat = 92 then "\\\\"
  else if c.toNat < 32 then
    "\\u00" ++ String.mk [hexDigit (c.toNat / 16), hexDigit (c.toNat % 16)]
  else String.mk [c]

/-- The JSON string literal of a text (`QuoteJSONString`). -/
def quote (s : String) : String :=
  "\"" ++ String.join (s.data.map escape) ++ "\""

/-- Brackets around the serialised members of an object or array.  `stepback`
is the indentation of the enclosing level, `gap` the indentation unit. -/
def wrap (opening closing gap stepback : String) (parts : List String) : String :=
  match parts with
  | [] => opening ++ closing
  | _ =>
    if gap = "" then opening ++ String.intercalate "," parts ++ closing
    else
      opening ++ "\n" ++ (stepback ++ gap)
        ++ String.intercalate (",\n" ++ (stepback ++ gap)) parts
        ++ "\n" ++ stepback ++ closing

/-- Serialisation of a property value (`SerializeJSONProperty`) at indentation
`indent`.  `undefined` has no serialisation (`none`): an object member with
that value is left out, an array element with that value is written `null`. -/
def serialize (gap : String) (indent : String) : JsVal → Option String
  | .undefined => none
  | .null => some "null"
  | .bool true => some "true"
  | .bool false => some "false"
  | .num n => some (toString n)
  | .str s => some (quote s)
  | .arr items => some (wrap "[" "]" gap indent (elements gap (indent ++ gap) items))
  | .obj fields => some (wrap "\x7b" "\x7d" gap indent (members gap (indent ++ gap) fields))
where
  /-- Serialised elements of an array. -/
  elements (gap : String) (indent : String) : List JsVal → List String
    | [] => []
    | x :: rest =>
      (match serialize gap indent x with
        | none => "null"
        | some s => s) :: elements gap indent rest
  /-- Serialised members of an object, those with value `undefined` left out. -/
  members (gap : String) (indent : String) : List (String × JsVal) → List String
    | [] => []
    | (k, v) :: rest =>
      match serialize gap indent v with
      | none => members gap indent rest
      | some s =>
        (quote k ++ ":" ++ (if gap = "" then "" else " ") ++ s) :: members gap indent rest

/-- The text returned by `JSON.stringify(o, null, gap)` for an object `o` with
the given properties, in order. -/
def stringify (fields : List (String × JsVal)) (gap : String) : String :=
  wrap "\x7b" "\x7d" gap "" (serialize.members gap gap fields)

end Json

/-! ## Configuration, messages and effects -/

/-- The part of `config` the service reads. -/
structure Config where
  /-- Field `config.node.blockchain.account`. -/
  account : String
  /-- Field `config.node.whisper.ttl`. -/
  ttl : Nat
  /-- Field `config.node.whisper.minPow`. -/
  minPow : Nat
  /-- Field `config.node.whisper.powTime`. -/
  powTime : Nat
  /-- Field `config.node.whisper.symKey`. -/
  symKey : String
deriving DecidableEq, Repr

/-- Identifiers the Whisper node hands out during `setup:complete`. -/
structure Keys where
  /-- Result of `web3.shh.newKeyPair()`. -/
  kId : String
  /-- Result of `web3.shh.addSymKey(config.node.whisper.symKey)`. -/
  symKeyID : String
  /-- Result of `web3.shh.getPublicKey(shhOptions.kId)`. -/
  pubKey : String
deriving DecidableEq, Repr

/-- The module-level object `shhOptions`; `kId` and `topics` are absent until
`setup:complete` assigns them. -/
structure ShhOptions where
  ttl : Nat
  minPow : Nat
  kId : Option String
  topics : Option (List String)
deriving DecidableEq, Repr

/-- The object handed to `web3.shh.subscribe`: `Object.assign` of a fresh
object holding one key identifier with the properties of `shhOptions`. -/
structure SubscribeOptions where
  symKeyID : Option String
  privateKeyID : Option String
  ttl : Nat
  minPow : Nat
  kId : Option String
  topics : Option (List String)
deriving DecidableEq, Repr

/-- Result of `web3.utils.fromAscii`, kept as the text it encodes. -/
inductive Hex where
  | fromAscii (text : String)
deriving DecidableEq, Repr

/-- The object handed to `web3.shh.post`. -/
structure PostParams where
  pubKey : String
  sig : Option String
  ttl : Nat
  powTarget : Nat
  powTime : Nat
  topic : String
  payload : Hex
deriving DecidableEq, Repr

/-- What `JSON.parse(web3.utils.toAscii(message.payload))` does on the payload
of a message: one of the two calls raises, or the text parses to a value. -/
inductive Payload where
  | invalid
  | json (parsedObj : JsVal)

/-- A Whisper message delivered to the subscription callback; `sig` is the
sender's public key, `undefined` (`none`) when the message is unsigned. -/
structure Message where
  sig : Option String
  topic : String
  payload : Payload

/-- The object built by `extractInput`.  A property that was never assigned
reads as `undefined`. -/
structure Request where
  contract : JsVal := .null
  address : JsVal := .null
  action : JsVal := .null
  functionName : JsVal := .undefined
  functionParameters : JsVal := .undefined
  payload : JsVal := .undefined
  token : JsVal := .undefined
  gasPrice : JsVal := .undefined

/-- A contract descriptor of the registry. -/
structure Contract where
  name : String
  /-- Keys of `allowedFunctions`. -/
  allowedFunctions : List String
deriving DecidableEq, Repr

/-- The registry: `settings.contracts` as its topic keys with their
descriptors, in enumeration order. -/
structure Settings where
  contracts : List (String × Contract)

/-- Modelled from the spec: `ContractSettings` (`contract-settings.js`) is not
part of the sources at hand.  The registry "maps topic → contract descriptor"
by property access on `contracts`; an unknown topic yields `undefined`. -/
def Settings.getContractByTopic (settings : Settings) (topic : String) : Option Contract :=
  match settings.contracts.find? (fun entry => decide (entry.1 = topic)) with
  | some entry => some entry.2
  | none => none

/-- An observable call made by the service. -/
inductive Effect where
  | info (text : String)
  | log (text : String)
  | error (text : String)
  | getBalance (account : String)
  | clearSubscriptions
  | exit (status : Nat)
  | newKeyPair
  | addSymKey (symKey : String)
  | getPublicKey (kId : String)
  | subscribe (options : SubscribeOptions)
  | post (params : PostParams)
  /-- Call `processor.process(contract, input, reply)`, where `reply` is the
  closure `replyFunction(replyTo)`. -/
  | process (contract : Option Contract) (input : Request) (replyTo : Message)

namespace Effect

/-- Whether the effect is `process.exit`. -/
def isExit : Effect → Bool
  | .exit _ => true
  | _ => false

/-- Whether the effect is a call of the transaction processor. -/
def isProcess : Effect → Bool
  | .process _ _ _ => true
  | _ => false

/-- The parameters of a `web3.shh.post`, if the effect is one. -/
def posted : Effect → Option PostParams
  | .post params => some params
  | _ => none

/-- The options of a `web3.shh.subscribe`, if the effect is one. -/
def subscribed : Effect → Option SubscribeOptions
  | .subscribe options => some options
  | _ => none

end Effect

/-- Whether a trace ends the process. -/
def halted (trace : List Effect) : Bool := trace.any Effect.isExit

/-- Sequential composition: nothing runs after `process.exit`. -/
def andThen (trace rest : List Effect) : List Effect :=
  if halted trace then trace else trace ++ rest

/-- All `web3.shh.post` calls of a trace, in order. -/
def posts (trace : List Effect) : List PostParams := trace.filterMap Effect.posted

/-- All `web3.shh.subscribe` calls of a trace, in order. -/
def subscriptions (trace : List Effect) : List SubscribeOptions :=
  trace.filterMap Effect.subscribed

/-- All calls of the transaction processor in a trace, in order. -/
def processCalls (trace : List Effect) : List Effect := trace.filter Effect.isProcess

/-- An `async` function whose body awaits `web3.eth.getBalance`: the effects up
to the `await`, which happen before the call returns, and the continuation run
with the balance once the promise has resolved. -/
structure Async where
  now : List Effect
  later : Nat → List Effect

/-- The whole of an asynchronous call whose continuation runs right after its
synchronous part, as when the caller awaits it. -/
def Async.run (a : Async) (nodeBalance : Nat) : List Effect :=
  andThen a.now (a.later nodeBalance)

/-! ## The service -/

/-- The object `shhOptions` as the module creates it. -/
def initialShhOptions (config : Config) : ShhOptions :=
  { ttl := config.ttl, minPow := config.minPow, kId := none, topics := none }

/-- Function `verifyBalance(exitSubs)`.  It requests the balance of the relayer
account and suspends; resumed with the balance, it compares `nodeBalance` with
100000 by `lte` and, when the balance is not above it, logs three lines, clears
the subscriptions if `exitSubs` is truthy and exits with status 0.  `exitSubs`
is `none` when the argument is omitted. -/
def verifyBalance (config : Config) (exitSubs : Option Bool) : Async :=
  { now := [Effect.getBalance config.account]
    later := fun nodeBalance =>
      if nodeBalance ≤ 100000 then
        [Effect.log "Not enough balance available for processing transactions",
         Effect.log ("> Account: " ++ config.account),
         Effect.log ("> Balance: " ++ toString nodeBalance)]
          ++ (if exitSubs = some true then [Effect.clearSubscriptions] else [])
          ++ [Effect.exit 0]
      else [] }

/-- The closure `replyFunction(message)` applied to `(text, receipt)`;
`receipt` is `undefined` when the caller passes no second argument. -/
def replyFunction (config : Config) (shhOptions : ShhOptions) (message : Message)
    (text : String) (receipt : JsVal) : List Effect :=
  match message.sig with
  | none => []
  | some sig =>
    [Effect.log text,
     Effect.post
      { pubKey := sig
        sig := shhOptions.kId
        ttl := config.ttl
        powTarget := config.minPow
        powTime := config.powTime
        topic := message.topic
        payload := Hex.fromAscii
          (Json.stringify [("message", JsVal.str text), ("receipt", receipt)] " ") }]

/-- The statements of the `try` block of `extractInput`, run on the object
`obj`.  Returns the object as the assignments reached before the block ended
left it, and whether the block ended by an exception. -/
def extractInput.tryBlock (payload : Payload) (obj : Request) : Request × Bool :=
  match payload with
  | .invalid => (obj, true)
  | .json parsedObj =>
    match parsedObj.get "contract" with
    | none => (obj, true)
    | some contract =>
      let obj := { obj with contract := contract }
      match parsedObj.get "address" with
      | none => (obj, true)
      | some address =>
        let obj := { obj with address := address }
        match parsedObj.get "action" with
        | none => (obj, true)
        | some action =>
          let obj := { obj with action := action }
          match obj.action.looseEq "transaction" with
          | none => (obj, true)
          | some true =>
            match parsedObj.get "encodedFunctionCall" with
            | none => (obj, true)
            | some encodedFunctionCall =>
              match encodedFunctionCall.slice 0 (some 10) with
              | none => (obj, true)
              | some functionName =>
                let obj := { obj with functionName := functionName }
                match encodedFunctionCall.slice 10 none with
                | none => (obj, true)
                | some rest =>
                  match JsVal.concat "0x" rest with
                  | none => (obj, true)
                  | some functionParameters =>
                    let obj := { obj with functionParameters := JsVal.str functionParameters }
                    ({ obj with payload := encodedFunctionCall }, false)
          | some false =>
            match obj.action.looseEq "availability" with
            | none => (obj, true)
            | some true =>
              match parsedObj.get "token" with
              | none => (obj, true)
              | some token =>
                let obj := { obj with token := token }
                match parsedObj.get "gasPrice" with
                | none => (obj, true)
                | some gasPrice => ({ obj with gasPrice := gasPrice }, false)
            | some false => (obj, false)

/-- Function `extractInput(message)`: the returned object, and the console
output of the `catch` block when the `try` block raised. -/
def extractInput (message : Message) : Request × List Effect :=
  let obj : Request := { contract := .null, address := .null, action := .null }
  let result := extractInput.tryBlock message.payload obj
  (result.1, if result.2 then [Effect.error "Couldn't parse [object Object]"] else [])

/-- A call made by the `switch` of the subscription callback. -/
inductive Call where
  | process (contract : Option Contract) (input : Request) (replyTo : Message)
  | reply (text : String) (receipt : JsVal)

/-- The `switch (input.action)` of the subscription callback: the calls of the
branch taken. -/
def dispatch (settings : Settings) (message : Message) (input : Request) : List Call :=
  if input.action.strictEq "transaction" then
    [Call.process (settings.getContractByTopic message.topic) input message]
  else if input.action.strictEq "availability" then
    [Call.reply "available" .undefined]
  else
    [Call.reply "unknown-action" .undefined]

/-- Effects of a call made by the `switch`, `reply` being `replyFunction(message)`. -/
def Call.perform (config : Config) (shhOptions : ShhOptions) (message : Message) :
    Call → List Effect
  | .process contract input replyTo => [Effect.process contract input replyTo]
  | .reply text receipt => replyFunction config shhOptions message text receipt

/-- The callback `(error, message) => ...` given to `web3.shh.subscribe`.
`verifyBalance(true)` is called and not awaited: the callback goes on with
`extractInput`, `replyFunction` and the `switch` while the balance request is
pending, and the continuation of `verifyBalance` runs after the callback has
returned. -/
def onMessage (config : Config) (shhOptions : ShhOptions) (settings : Settings) :
    Except String Message → Async
  | .error error => { now := [Effect.error error], later := fun _ => [] }
  | .ok message =>
    let balance := verifyBalance config (some true)
    let input := extractInput message
    { now := balance.now ++ input.2
        ++ (dispatch settings message input.1).flatMap (Call.perform config shhOptions message)
      later := balance.later }

/-- Listener of `server:listen`: one `web3.shh.subscribe('messages', ...)` with
the options it is given and `onMessage` as callback. -/
def serverListen (shhOptions : SubscribeOptions) : List Effect :=
  [Effect.subscribe shhOptions]

/-- Expression `Object.assign({symKeyID}, shhOptions)`. -/
def assignSymKey (symKeyID : String) (shhOptions : ShhOptions) : SubscribeOptions :=
  { symKeyID := some symKeyID, privateKeyID := none, ttl := shhOptions.ttl
    minPow := shhOptions.minPow, kId := shhOptions.kId, topics := shhOptions.topics }

/-- Expression `Object.assign({privateKeyID: shhOptions.kId}, shhOptions)`. -/
def assignPrivateKey (shhOptions : ShhOptions) : SubscribeOptions :=
  { symKeyID := none, privateKeyID := shhOptions.kId, ttl := shhOptions.ttl
    minPow := shhOptions.minPow, kId := shhOptions.kId, topics := shhOptions.topics }

/-- The loop `for (let contract in settings.contracts)` of `setup:complete`,
over the remaining keys: the final `shhOptions` and the effects.  Reading
`.name` of an unknown descriptor raises, which ends the listener. -/
def setupComplete.loop (symKeyID : String) (settings : Settings) :
    List String → ShhOptions → ShhOptions × List Effect
  | [], shhOptions => (shhOptions, [])
  | contract :: rest, shhOptions =>
    match settings.getContractByTopic contract with
    | none => (shhOptions, [])
    | some descriptor =>
      let line := Effect.info ("- " ++ descriptor.name ++ ": " ++ contract ++ " ["
        ++ String.intercalate ", " descriptor.allowedFunctions ++ "]")
      let shhOptions := { shhOptions with topics := some [contract] }
      let pub := serverListen (assignSymKey symKeyID shhOptions)
      let priv := serverListen (assignPrivateKey shhOptions)
      let next := setupComplete.loop symKeyID settings rest shhOptions
      (next.1, line :: (pub ++ priv ++ next.2))

/-- Listener of `setup:complete`, run with the relayer balance `nodeBalance`
and the identifiers `keys` the node returns: the final `shhOptions` and the
effects.  The balance check is awaited, so nothing follows an exit. -/
def setupComplete (config : Config) (keys : Keys) (settings : Settings) (nodeBalance : Nat) :
    ShhOptions × List Effect :=
  let shhOptions := initialShhOptions config
  let check := (verifyBalance config none).run nodeBalance
  if halted check then (shhOptions, check)
  else
    let shhOptions := { shhOptions with kId := some keys.kId }
    let opening :=
      [Effect.newKeyPair, Effect.addSymKey config.symKey, Effect.getPublicKey keys.kId,
       Effect.info ("Sym Key: " ++ config.symKey),
       Effect.info ("Relayer Public Key: " ++ keys.pubKey),
       Effect.info "Topics Available:"]
    let fanOut := setupComplete.loop keys.symKeyID settings
      (settings.contracts.map Prod.fst) shhOptions
    (fanOut.1, check ++ opening ++ fanOut.2)

/-- Everything one delivery causes when no other event intervenes: the
callback runs to completion, then the pending balance check resumes. -/
def deliver (config : Config) (shhOptions : ShhOptions) (settings : Settings)
    (delivery : Except String Message) (nodeBalance : Nat) : List Effect :=
  (onMessage config shhOptions settings delivery).run nodeBalance

/-! ## Expected values

Definitions the statements below compare the service with. -/

/-- Whether a character is a hexadecimal digit. -/
def isHexChar (c : Char) : Bool :=
  (48 ≤ c.toNat && c.toNat ≤ 57) || (97 ≤ c.toNat && c.toNat ≤ 102)
    || (65 ≤ c.toNat && c.toNat ≤ 70)

/-- The properties of the object a published reply serialises: `message`, and
`receipt` when the caller passed one. -/
def replyEnvelope (text : String) (receipt : JsVal) : List (String × JsVal) :=
  match receipt with
  | .undefined => [("message", JsVal.str text)]
  | given => [("message", JsVal.str text), ("receipt", given)]

/-- The properties of the reply object as the interface describes it:
`message` and `receipt`, the latter `null` when there is no receipt. -/
def describedEnvelope (text : String) (receipt : JsVal) : List (String × JsVal) :=
  match receipt with
  | .undefined => [("message", JsVal.str text), ("receipt", JsVal.null)]
  | given => [("message", JsVal.str text), ("receipt", given)]

/-- The options expected for the symmetric-key subscription of a topic. -/
def symSubscription (config : Config) (keys : Keys) (topic : String) : SubscribeOptions :=
  { symKeyID := some keys.symKeyID, privateKeyID := none, ttl := config.ttl
    minPow := config.minPow, kId := some keys.kId, topics := some [topic] }

/-- The options expected for the private-key subscription of a topic. -/
def privateSubscription (config : Config) (keys : Keys) (topic : String) : SubscribeOptions :=
  { symKeyID := none, privateKeyID := some keys.kId, ttl := config.ttl
    minPow := config.minPow, kId := some keys.kId, topics := some [topic] }

/-- The topics of the registry, in enumeration order. -/
def Settings.topics (settings : Settings) : List String := settings.contracts.map Prod.fst

/-! ## Sample inputs -/

namespace Example

def config : Config :=
  { account := "0xb8d851486d1c953e31a44374aca11151d49b8bb3", ttl := 1000, minPow := 2,
    powTime := 1000, symKey := "0xd0d905c1c62b810b787141430417caf2b3f54cffadb395b7bb39fdeb8f17266b" }

def keys : Keys := { kId := "kid-1", symKeyID := "sym-1", pubKey := "0x04aa" }

def shhOptions : ShhOptions :=
  { ttl := 1000, minPow := 2, kId := some "kid-1", topics := some ["0x4e4f5449"] }

def settings : Settings :=
  { contracts :=
      [("0x534e5443", { name := "SNTController", allowedFunctions := ["0x916b6511"] }),
       ("0x4e4f5449", { name := "IdentityGasRelay", allowedFunctions := ["0xfd0dded5", "0xd0cfa729"] })] }

/-- A signed `transaction` request calling selector `a9059cbb`. -/
def transfer : Message :=
  { sig := some "0x04bb"
    topic := "0x534e5443"
    payload := Payload.json (JsVal.obj
      [("contract", JsVal.str "0x744d70fdbe2ba4cf95131626614a1763df805b9e"),
       ("address", JsVal.str "0x5aeda56215b167893e80b4fe645ba6d5bab767de"),
       ("action", JsVal.str "transaction"),
       ("encodedFunctionCall", JsVal.str
         "0xa9059cbb000000000000000000000000c5fdf4076b8f3a5357c5e395ab970b5b54098fef0000000000000000000000000000000000000000000000000000000000000064")]) }

/-- A signed record whose text is `\x7b"action":"transaction"\x7d`. -/
def truncated : Message :=
  { sig := some "0x04bb"
    topic := "0x534e5443"
    payload := Payload.json (JsVal.obj [("action", JsVal.str "transaction")]) }

/-- An unsigned `availability` probe. -/
def anonymous : Message :=
  { sig := none
    topic := "0x4e4f5449"
    payload := Payload.json (JsVal.obj
      [("contract", JsVal.str "0x744d70fdbe2ba4cf95131626614a1763df805b9e"),
       ("address", JsVal.str "0x5aeda56215b167893e80b4fe645ba6d5bab767de"),
       ("action", JsVal.str "availability"),
       ("token", JsVal.str "0x0000000000000000000000000000000000000000"),
       ("gasPrice", JsVal.num 20000000000)]) }

/-- A signed request with the action string `unknown`. -/
def unknown : Message :=
  { sig := some "0x04cc"
    topic := "0x4e4f5449"
    payload := Payload.json (JsVal.obj
      [("contract", JsVal.str "0x744d70fdbe2ba4cf95131626614a1763df805b9e"),
       ("address", JsVal.str "0x5aeda56215b167893e80b4fe645ba6d5bab767de"),
       ("action", JsVal.str "unknown")]) }

/-- A signed `availability` probe. -/
def probe : Message :=
  { sig := some "0x04dd"
    topic := "0x4e4f5449"
    payload := Payload.json (JsVal.obj
      [("contract", JsVal.str "0x744d70fdbe2ba4cf95131626614a1763df805b9e"),
       ("address", JsVal.str "0x5aeda56215b167893e80b4fe645ba6d5bab767de"),
       ("action", JsVal.str "availability"),
       ("token", JsVal.str "0x0000000000000000000000000000000000000000"),
       ("gasPrice", JsVal.num 20000000000)]) }

/-- An unsigned message whose payload is not JSON text. -/
def garbled : Message :=
  { sig := none, topic := "0x534e5443", payload := Payload.invalid }

end Example

/-! ## Lemmas -/

theorem strictEq_eq_true_iff (v : JsVal) (word : String) :
    v.strictEq word = true ↔ v = JsVal.str word := by
  cases v <;> simp [JsVal.strictEq]

theorem strictEq_eq_false_iff (v : JsVal) (word : String) :
    v.strictEq word = false ↔ v ≠ JsVal.str word := by
  cases v <;> simp [JsVal.strictEq]

theorem posts_extractInput (message : Message) : posts (extractInput message).2 = [] := by
  unfold extractInput posts
  dsimp only
  split <;> simp [Effect.posted]

theorem processCalls_extractInput (message : Message) :
    processCalls (extractInput message).2 = [] := by
  unfold extractInput processCalls
  dsimp only
  split <;> simp [Effect.isProcess]

theorem posts_verifyBalance_later (config : Config) (exitSubs : Option Bool) (b : Nat) :
    posts ((verifyBalance config exitSubs).later b) = [] := by
  unfold verifyBalance posts
  dsimp only
  split
  · split <;> simp [Effect.posted]
  · rfl

theorem replyFunction_unsigned (config : Config) (shhOptions : ShhOptions) (message : Message)
    (h : message.sig = none) (text : String) (receipt : JsVal) :
    replyFunction config shhOptions message text receipt = [] := by
  simp [replyFunction, h]

theorem replyFunction_signed (config : Config) (shhOptions : ShhOptions) (message : Message)
    (sender : String) (h : message.sig = some sender) (text : String) (receipt : JsVal) :
    replyFunction config shhOptions message text receipt =
      [Effect.log text,
       Effect.post
        { pubKey := sender, sig := shhOptions.kId, ttl := config.ttl
          powTarget := config.minPow, powTime := config.powTime, topic := message.topic
          payload := Hex.fromAscii
            (Json.stringify [("message", JsVal.str text), ("receipt", receipt)] " ") }] := by
  simp [replyFunction, h]

theorem processCalls_replyFunction (config : Config) (shhOptions : ShhOptions)
    (message : Message) (text : String) (receipt : JsVal) :
    processCalls (replyFunction config shhOptions message text receipt) = [] := by
  unfold replyFunction processCalls
  cases message.sig <;> simp [Effect.isProcess]

theorem onMessage_now (config : Config) (shhOptions : ShhOptions) (settings : Settings)
    (message : Message) :
    (onMessage config shhOptions settings (.ok message)).now =
      Effect.getBalance config.account :: ((extractInput message).2 ++
        (dispatch settings message (extractInput message).1).flatMap
          (Call.perform config shhOptions message)) := by
  simp [onMessage, verifyBalance]

theorem sliceList_selector (sel args : String) (hsel : sel.length = 8) :
    JsVal.sliceList ("0x" ++ sel ++ args).data 0 (some 10) = ("0x" ++ sel).data ∧
    JsVal.sliceList ("0x" ++ sel ++ args).data 10 none = args.data := by
  have hlen : sel.data.length = 8 := hsel
  have h10 : ("0x" ++ sel).data.length = 10 := by
    simp [String.data_append, hlen]
  constructor
  · simp only [JsVal.sliceList, List.drop_zero, String.data_append] at *
    rw [List.take_append_of_le_length (by omega)]
    rw [List.take_of_length_le (by omega)]
  · simp only [JsVal.sliceList, String.data_append] at *
    rw [List.drop_append_of_le_length (by omega)]
    rw [List.drop_of_length_le (by omega)]
    simp

theorem stringify_envelope (text : String) (receipt : JsVal) :
    Json.stringify [("message", JsVal.str text), ("receipt", receipt)] " " =
      Json.stringify (replyEnvelope text receipt) " " := by
  cases receipt <;> rfl

theorem getContractByTopic_of_mem (settings : Settings) (topic : String)
    (h : topic ∈ settings.topics) : ∃ d, settings.getContractByTopic topic = some d := by
  unfold Settings.getContractByTopic
  cases hfind : settings.contracts.find? (fun entry => decide (entry.1 = topic)) with
  | some entry => exact ⟨entry.2, rfl⟩
  | none =>
    exfalso
    rw [List.find?_eq_none] at hfind
    unfold Settings.topics at h
    rw [List.mem_map] at h
    obtain ⟨entry, hmem, heq⟩ := h
    exact hfind entry hmem (by simp [heq])

theorem loop_subscriptions (symKeyID : String) (settings : Settings) :
    ∀ (remaining : List String) (shhOptions : ShhOptions),
      (∀ t ∈ remaining, t ∈ settings.topics) →
      subscriptions (setupComplete.loop symKeyID settings remaining shhOptions).2 =
        remaining.flatMap (fun t =>
          [assignSymKey symKeyID { shhOptions with topics := some [t] },
           assignPrivateKey { shhOptions with topics := some [t] }]) ∧
      (setupComplete.loop symKeyID settings remaining shhOptions).1 =
        { shhOptions with
          topics := match remaining.getLast? with
            | none => shhOptions.topics
            | some t => some [t] } := by
  intro remaining
  induction remaining with
  | nil => intro shhOptions _; exact ⟨rfl, rfl⟩
  | cons t rest ih =>
    intro shhOptions hmem
    obtain ⟨d, hd⟩ := getContractByTopic_of_mem settings t (hmem t (List.mem_cons_self _ _))
    have hrest := ih { shhOptions with topics := some [t] }
      (fun u hu => hmem u (List.mem_cons_of_mem _ hu))
    obtain ⟨h1, h2⟩ := hrest
    constructor
    · simp only [setupComplete.loop, hd, subscriptions, serverListen, List.filterMap_cons,
        Effect.subscribed, List.filterMap_append, List.filterMap_nil, List.flatMap_cons]
      unfold subscriptions at h1
      rw [h1]
      rfl
    · simp only [setupComplete.loop, hd]
      rw [h2]
      cases rest with
      | nil => rfl
      | cons u more =>
        rw [List.getLast?_cons_cons]
        obtain ⟨x, hx⟩ : ∃ x, (u :: more).getLast? = some x :=
          ⟨_, List.getLast?_eq_getLast _ (List.cons_ne_nil u more)⟩
        rw [hx]

theorem mem_pair_flatMap {α β : Type} (f g : α → β) (l : List α) (b : β) :
    b ∈ l.flatMap (fun t => [f t, g t]) ↔ ∃ t ∈ l, b = f t ∨ b = g t := by
  simp [List.mem_flatMap]

theorem length_pair_flatMap {α β : Type} (f g : α → β) (l : List α) :
    (l.flatMap (fun t => [f t, g t])).length = 2 * l.length := by
  induction l with
  | nil => rfl
  | cons a rest ih =>
    simp only [List.flatMap_cons, List.length_append, List.length_cons, List.length_nil, ih]
    omega

theorem nodup_pair_flatMap {α β : Type} (f g : α → β) (hf : Function.Injective f)
    (hg : Function.Injective g) (hfg : ∀ a b, f a ≠ g b) :
    ∀ l : List α, l.Nodup → (l.flatMap (fun t => [f t, g t])).Nodup := by
  intro l
  induction l with
  | nil => intro _; simp
  | cons a rest ih =>
    intro hnd
    rw [List.nodup_cons] at hnd
    obtain ⟨ha, hrest⟩ := hnd
    have hne : ∀ t ∈ rest, t ≠ a := fun t ht hta => ha (hta ▸ ht)
    simp only [List.flatMap_cons, List.cons_append, List.nil_append, List.nodup_cons,
      List.mem_cons, mem_pair_flatMap]
    refine ⟨?_, ?_, ih hrest⟩
    · rintro (h | ⟨t, ht, h | h⟩)
      · exact hfg a a h
      · exact hne t ht (hf h).symm
      · exact hfg a t h
    · rintro ⟨t, ht, h | h⟩
      · exact hfg t a h.symm
      · exact hne t ht (hg h).symm

theorem halted_onMessage_now (config : Config) (shhOptions : ShhOptions) (settings : Settings)
    (message : Message) :
    halted (onMessage config shhOptions settings (.ok message)).now = false := by
  rw [onMessage_now]
  have hx : (extractInput message).2.any Effect.isExit = false := by
    unfold extractInput
    dsimp only
    split <;> simp [Effect.isExit]
  have hr : ∀ text receipt,
      (replyFunction config shhOptions message text receipt).any Effect.isExit = false := by
    intro text receipt
    unfold replyFunction
    cases message.sig <;> simp [Effect.isExit]
  unfold halted
  rw [List.any_cons, List.any_append, hx]
  unfold dispatch
  split
  · simp [Call.perform, Effect.isExit]
  · split <;> simp [Call.perform, Effect.isExit, hr]

/-- One delivery is the callback followed by the resumed balance check: the
callback itself never exits. -/
theorem deliver_eq (config : Config) (shhOptions : ShhOptions) (settings : Settings)
    (message : Message) (nodeBalance : Nat) :
    deliver config shhOptions settings (.ok message) nodeBalance =
      (onMessage config shhOptions settings (.ok message)).now ++
        (verifyBalance config (some true)).later nodeBalance := by
  unfold deliver Async.run andThen
  rw [halted_onMessage_now]
  simp [onMessage]

/-- Whatever the balance, a delivered message whose decoded action is
`transaction` reaches the transaction processor: the processor calls of the
delivery do not depend on `nodeBalance`. -/
theorem processCalls_deliver_transaction (config : Config) (shhOptions : ShhOptions)
    (settings : Settings) (message : Message) (nodeBalance : Nat)
    (h : (extractInput message).1.action = JsVal.str "transaction") :
    processCalls (deliver config shhOptions settings (.ok message) nodeBalance) =
      [Effect.process (settings.getContractByTopic message.topic)
        (extractInput message).1 message] := by
  have hd : dispatch settings message (extractInput message).1 =
      [Call.process (settings.getContractByTopic message.topic)
        (extractInput message).1 message] := by
    simp [dispatch, h, JsVal.strictEq]
  rw [deliver_eq, onMessage_now, hd]
  have hx := processCalls_extractInput message
  have hl : processCalls ((verifyBalance config (some true)).later nodeBalance) = [] := by
    unfold verifyBalance processCalls
    dsimp only
    split <;> simp [Effect.isProcess]
  unfold processCalls at hx hl ⊢
  simp [List.filter_cons, List.filter_append, Effect.isProcess, hx, hl, Call.perform]

/-- A payload that `web3.utils.toAscii` or `JSON.parse` rejects is decoded
without exception to the initial object, action `null`, and answered
`unknown-action`. -/
theorem extractInput_invalid (settings : Settings) (message : Message)
    (h : message.payload = Payload.invalid) :
    (extractInput message).1.action = JsVal.null ∧
    (extractInput message).2 = [Effect.error "Couldn't parse [object Object]"] ∧
    dispatch settings message (extractInput message).1 =
      [Call.reply "unknown-action" JsVal.undefined] := by
  simp [extractInput, extractInput.tryBlock, h, dispatch, JsVal.strictEq]

/-- A payload that parses to something other than a record (a number, a
string, a boolean, an array or `null`) is decoded without a recognised action
and answered `unknown-action`. -/
theorem extractInput_not_record (settings : Settings) (message : Message) (parsedObj : JsVal)
    (h : message.payload = Payload.json parsedObj)
    (hrecord : ∀ fields, parsedObj ≠ JsVal.obj fields) :
    dispatch settings message (extractInput message).1 =
      [Call.reply "unknown-action" JsVal.undefined] := by
  cases parsedObj with
  | obj fields => exact absurd rfl (hrecord fields)
  | _ => simp [extractInput, extractInput.tryBlock, h, dispatch, JsVal.strictEq, JsVal.get,
      JsVal.looseEq]

/-! ## Claims -/

/-- C1 (what the code does): with balance 0 a signed `transaction` message is
handed to the transaction processor; the balance check of that message runs
only afterwards and then exits. -/
theorem low_balance_transaction_is_dispatched :
    deliver Example.config Example.shhOptions Example.settings (.ok Example.transfer) 0 =
      [Effect.getBalance Example.config.account,
       Effect.process (Example.settings.getContractByTopic "0x534e5443")
         (extractInput Example.transfer).1 Example.transfer,
       Effect.log "Not enough balance available for processing transactions",
       Effect.log "> Account: 0xb8d851486d1c953e31a44374aca11151d49b8bb3",
       Effect.log "> Balance: 0",
       Effect.clearSubscriptions,
       Effect.exit 0] := by
  rfl

/-- C2: resumed with balance `b`, `verifyBalance` ends the process exactly when
`b ≤ 100000`, and then with status 0; above 100000 it does nothing beyond the
balance query; at or below, the subscriptions are cleared exactly when
`exitSubs` is `true`, and before the exit, which is the last effect. -/
theorem verifyBalance_exit_iff (config : Config) (exitSubs : Option Bool) (b : Nat) :
    (halted ((verifyBalance config exitSubs).later b) = true ↔ b ≤ 100000) ∧
    (∀ e ∈ (verifyBalance config exitSubs).later b, e.isExit = true → e = Effect.exit 0) ∧
    (100000 < b →
      (verifyBalance config exitSubs).later b = [] ∧
      (verifyBalance config exitSubs).run b = [Effect.getBalance config.account]) ∧
    (b ≤ 100000 →
      (Effect.clearSubscriptions ∈ (verifyBalance config exitSubs).later b ↔
        exitSubs = some true) ∧
      ∃ before, (verifyBalance config exitSubs).later b = before ++ [Effect.exit 0] ∧
        halted before = false) := by
  refine ⟨?_, ?_, ?_, ?_⟩
  · by_cases hb : b ≤ 100000
    · by_cases hx : exitSubs = some true <;>
        simp [verifyBalance, halted, Effect.isExit, hb, hx]
    · simp [verifyBalance, halted, hb]
  · intro e he hexit
    cases e <;> simp [Effect.isExit] at hexit
    by_cases hb : b ≤ 100000
    · by_cases hx : exitSubs = some true <;>
        simp [verifyBalance, hb, hx] at he <;> simp [he]
    · simp [verifyBalance, hb] at he
  · intro hb
    have hb' : ¬ b ≤ 100000 := Nat.not_le.mpr hb
    simp [verifyBalance, Async.run, andThen, halted, Effect.isExit, hb']
  · intro hb
    refine ⟨?_, ?_⟩
    · by_cases hx : exitSubs = some true <;> simp [verifyBalance, hb, hx]
    · by_cases hx : exitSubs = some true
      · refine ⟨[Effect.log "Not enough balance available for processing transactions",
          Effect.log ("> Account: " ++ config.account),
          Effect.log ("> Balance: " ++ toString b), Effect.clearSubscriptions], ?_, ?_⟩
        · simp [verifyBalance, hb, hx]
        · simp [halted, Effect.isExit]
      · refine ⟨[Effect.log "Not enough balance available for processing transactions",
          Effect.log ("> Account: " ++ config.account),
          Effect.log ("> Balance: " ++ toString b)], ?_, ?_⟩
        · simp [verifyBalance, hb, hx]
        · simp [halted, Effect.isExit]

theorem verifyBalance_exit_iff_witness :
    halted ((verifyBalance Example.config (some true)).later 100000) = true ∧
    Effect.clearSubscriptions ∈ (verifyBalance Example.config (some true)).later 100000 ∧
    Effect.clearSubscriptions ∉ (verifyBalance Example.config none).later 100000 ∧
    (verifyBalance Example.config (some true)).later 100001 = [] :=
  ⟨(verifyBalance_exit_iff Example.config (some true) 100000).1.mpr (by decide),
    ((verifyBalance_exit_iff Example.config (some true) 100000).2.2.2 (by decide)).1.mpr rfl,
    fun hmem => absurd
      (((verifyBalance_exit_iff Example.config none 100000).2.2.2 (by decide)).1.mp hmem)
      (by decide),
    ((verifyBalance_exit_iff Example.config (some true) 100001).2.2.1 (by decide)).1⟩

/-- C3 (what the code does): a `transaction` record without
`encodedFunctionCall` makes the `try` block raise after `action` was assigned;
the returned request keeps action `transaction` and the `switch` calls the
transaction processor instead of replying `unknown-action`. -/
theorem truncated_transaction_reaches_processor :
    (extractInput Example.truncated).1.action = JsVal.str "transaction" ∧
    (extractInput Example.truncated).2 = [Effect.error "Couldn't parse [object Object]"] ∧
    dispatch Example.settings Example.truncated (extractInput Example.truncated).1 =
      [Call.process (Example.settings.getContractByTopic "0x534e5443")
        (extractInput Example.truncated).1 Example.truncated] ∧
    posts (onMessage Example.config Example.shhOptions Example.settings
      (.ok Example.truncated)).now = [] := by
  refine ⟨rfl, rfl, rfl, rfl⟩

/-- C4: a record with action `transaction` and `encodedFunctionCall` equal to
`0x`, eight hexadecimal characters `sel` and hexadecimal `args` decodes without
exception to `functionName = 0x ++ sel`, `functionParameters = 0x ++ args` and
`payload` the whole encoded call. -/
theorem extractInput_transaction_split (message : Message)
    (fields : List (String × JsVal)) (sel args : String)
    (hpayload : message.payload = Payload.json (JsVal.obj fields))
    (haction : JsVal.own fields "action" = some (JsVal.str "transaction"))
    (hcall : JsVal.own fields "encodedFunctionCall" = some (JsVal.str ("0x" ++ sel ++ args)))
    (hsel : sel.length = 8)
    (_hselHex : sel.data.all isHexChar = true)
    (_hargsHex : args.data.all isHexChar = true) :
    (extractInput message).1.functionName = JsVal.str ("0x" ++ sel) ∧
    (extractInput message).1.functionParameters = JsVal.str ("0x" ++ args) ∧
    (extractInput message).1.payload = JsVal.str ("0x" ++ sel ++ args) ∧
    (extractInput message).1.action = JsVal.str "transaction" ∧
    (extractInput message).2 = [] := by
  obtain ⟨h1, h2⟩ := sliceList_selector sel args hsel
  have e1 : String.mk (JsVal.sliceList ("0x" ++ sel ++ args).data 0 (some 10)) = "0x" ++ sel := by
    rw [h1]
  have e2 : String.mk (JsVal.sliceList ("0x" ++ sel ++ args).data 10 none) = args := by
    rw [h2]
  generalize "0x" ++ sel ++ args = call at hcall e1 e2 ⊢
  simp [extractInput, extractInput.tryBlock, hpayload, JsVal.get, haction, hcall,
    JsVal.looseEq, JsVal.slice, JsVal.concat, JsVal.toStr, e1, e2]

theorem extractInput_transaction_split_witness :
    (extractInput Example.transfer).1.functionName = JsVal.str ("0x" ++ "a9059cbb") ∧
    (extractInput Example.transfer).1.functionParameters = JsVal.str ("0x" ++
      "000000000000000000000000c5fdf4076b8f3a5357c5e395ab970b5b54098fef0000000000000000000000000000000000000000000000000000000000000064") ∧
    (extractInput Example.transfer).1.payload = JsVal.str ("0x" ++ "a9059cbb" ++
      "000000000000000000000000c5fdf4076b8f3a5357c5e395ab970b5b54098fef0000000000000000000000000000000000000000000000000000000000000064") ∧
    (extractInput Example.transfer).1.action = JsVal.str "transaction" ∧
    (extractInput Example.transfer).2 = [] :=
  extractInput_transaction_split Example.transfer _ "a9059cbb"
    "000000000000000000000000c5fdf4076b8f3a5357c5e395ab970b5b54098fef0000000000000000000000000000000000000000000000000000000000000064"
    rfl rfl rfl rfl rfl rfl

/-- C5: when the message carries no sender key, the closure built by
`replyFunction` publishes nothing whatever it is called with, and nothing is
posted while the message is handled, for any payload and any balance. -/
theorem no_post_without_sender_key (config : Config) (shhOptions : ShhOptions)
    (settings : Settings) (message : Message) (h : message.sig = none) :
    (∀ text receipt, replyFunction config shhOptions message text receipt = []) ∧
    (∀ nodeBalance,
      posts (deliver config shhOptions settings (.ok message) nodeBalance) = []) := by
  refine ⟨replyFunction_unsigned config shhOptions message h, ?_⟩
  intro nodeBalance
  have hnow : posts (onMessage config shhOptions settings (.ok message)).now = [] := by
    rw [onMessage_now]
    have hx := posts_extractInput message
    unfold posts at hx ⊢
    simp only [List.filterMap_cons, List.filterMap_append, Effect.posted, hx, List.nil_append]
    unfold dispatch
    split
    · simp [Call.perform, Effect.posted]
    · split <;> simp [Call.perform, replyFunction_unsigned _ _ _ h]
  have hlater := posts_verifyBalance_later config (some true) nodeBalance
  unfold deliver Async.run andThen
  split
  · exact hnow
  · unfold posts at hnow hlater ⊢
    rw [List.filterMap_append, hnow]
    simpa [onMessage] using hlater

theorem no_post_without_sender_key_witness :
    Example.anonymous.sig = none ∧
    (∀ text receipt,
      replyFunction Example.config Example.shhOptions Example.anonymous text receipt = []) ∧
    (∀ nodeBalance,
      posts (deliver Example.config Example.shhOptions Example.settings
        (.ok Example.anonymous) nodeBalance) = []) :=
  ⟨rfl, no_post_without_sender_key Example.config Example.shhOptions Example.settings
    Example.anonymous rfl⟩

/-- C6 (as stated, refuted): the reply `available` sent without a receipt is
not the JSON of an object with the two fields `message` and `receipt: null`;
the posted text has the single field `message`. -/
theorem reply_without_receipt_has_no_receipt_field :
    posts (replyFunction Example.config Example.shhOptions Example.transfer
        "available" JsVal.undefined) ≠
      [{ pubKey := "0x04bb", sig := some "kid-1", ttl := 1000, powTarget := 2, powTime := 1000
         topic := "0x534e5443"
         payload := Hex.fromAscii
          (Json.stringify (describedEnvelope "available" JsVal.undefined) " ") }] ∧
    posts (replyFunction Example.config Example.shhOptions Example.transfer
        "available" JsVal.undefined) =
      [{ pubKey := "0x04bb", sig := some "kid-1", ttl := 1000, powTarget := 2, powTime := 1000
         topic := "0x534e5443"
         payload := Hex.fromAscii "\x7b\n \"message\": \"available\"\n\x7d" }] := by
  constructor
  · decide
  · decide

/-- C6 (amended): a published reply is one post to the sender's key on the
topic of the message, signed with the relayer key pair, with the configured
ttl, proof-of-work target and time; its payload encodes the 1-space-indented
JSON of the object with field `message` equal to the text and, when a receipt
is given, field `receipt` equal to it. -/
theorem replyFunction_post (config : Config) (shhOptions : ShhOptions) (message : Message)
    (sender : String) (h : message.sig = some sender) (text : String) (receipt : JsVal) :
    replyFunction config shhOptions message text receipt =
      [Effect.log text,
       Effect.post
        { pubKey := sender, sig := shhOptions.kId, ttl := config.ttl
          powTarget := config.minPow, powTime := config.powTime, topic := message.topic
          payload := Hex.fromAscii (Json.stringify (replyEnvelope text receipt) " ") }] := by
  rw [replyFunction_signed config shhOptions message sender h, stringify_envelope]

theorem replyFunction_post_witness :
    Example.transfer.sig = some "0x04bb" ∧
    replyFunction Example.config Example.shhOptions Example.transfer "available" JsVal.undefined =
      [Effect.log "available",
       Effect.post
        { pubKey := "0x04bb", sig := Example.shhOptions.kId, ttl := Example.config.ttl
          powTarget := Example.config.minPow, powTime := Example.config.powTime
          topic := Example.transfer.topic
          payload := Hex.fromAscii
            (Json.stringify (replyEnvelope "available" JsVal.undefined) " ") }] :=
  ⟨rfl, replyFunction_post Example.config Example.shhOptions Example.transfer "0x04bb" rfl
    "available" JsVal.undefined⟩

/-- C7 (as stated, refuted): with two distinct topics registered and a relayer
balance of 0 the `setup:complete` listener exits at its balance check and
opens no subscription, not four. -/
theorem setup_without_funds_opens_nothing :
    Example.settings.topics.Nodup ∧
    ¬ ((subscriptions (setupComplete Example.config Example.keys Example.settings 0).2).length
        = 2 * Example.settings.topics.length) := by
  constructor
  · decide
  · decide

/-- With a balance above 100000 the `setup:complete` listener opens, for the
topics of the registry in order, one subscription with the shared symmetric
key and one with the relayer's private key, each with `topics = [t]` for its
own topic, while the shared `shhOptions.topics` ends as the last topic. -/
theorem setupComplete_funded (config : Config) (keys : Keys) (settings : Settings)
    (nodeBalance : Nat) (hfunds : 100000 < nodeBalance) (hdistinct : settings.topics.Nodup) :
    subscriptions (setupComplete config keys settings nodeBalance).2 =
      settings.topics.flatMap (fun t =>
        [symSubscription config keys t, privateSubscription config keys t]) ∧
    (subscriptions (setupComplete config keys settings nodeBalance).2).length =
      2 * settings.topics.length ∧
    (∀ t ∈ settings.topics,
      (subscriptions (setupComplete config keys settings nodeBalance).2).count
          (symSubscription config keys t) = 1 ∧
      (subscriptions (setupComplete config keys settings nodeBalance).2).count
          (privateSubscription config keys t) = 1) ∧
    (∀ s ∈ subscriptions (setupComplete config keys settings nodeBalance).2,
      ∃ t ∈ settings.topics, s.topics = some [t]) ∧
    (setupComplete config keys settings nodeBalance).1.topics =
      match settings.topics.getLast? with
      | none => none
      | some t => some [t] := by
  have hb : ¬ nodeBalance ≤ 100000 := Nat.not_le.mpr hfunds
  obtain ⟨hsubs, hfinal⟩ := loop_subscriptions keys.symKeyID settings settings.topics
    { initialShhOptions config with kId := some keys.kId } (fun t ht => ht)
  have hlist : subscriptions (setupComplete config keys settings nodeBalance).2 =
      settings.topics.flatMap (fun t =>
        [symSubscription config keys t, privateSubscription config keys t]) := by
    have hcheck : (verifyBalance config none).run nodeBalance =
        [Effect.getBalance config.account] := by
      simp [verifyBalance, Async.run, andThen, halted, Effect.isExit, hb]
    unfold setupComplete
    simp only [hcheck, halted, List.any_cons, List.any_nil, Effect.isExit, Bool.or_self,
      Bool.false_eq_true, if_false]
    unfold subscriptions at hsubs ⊢
    simp only [List.filterMap_append, List.filterMap_cons, List.filterMap_nil,
      Effect.subscribed, List.nil_append]
    unfold Settings.topics at hsubs
    rw [hsubs]
    rfl
  have hnodup := nodup_pair_flatMap (symSubscription config keys)
    (privateSubscription config keys)
    (fun a b h => by simpa [symSubscription] using h)
    (fun a b h => by simpa [privateSubscription] using h)
    (fun a b h => by simp [symSubscription, privateSubscription] at h)
    settings.topics hdistinct
  refine ⟨hlist, ?_, ?_, ?_, ?_⟩
  · rw [hlist]
    exact length_pair_flatMap _ _ _
  · intro t ht
    rw [hlist]
    constructor
    · exact List.count_eq_one_of_mem hnodup
        ((mem_pair_flatMap _ _ _ _).mpr ⟨t, ht, Or.inl rfl⟩)
    · exact List.count_eq_one_of_mem hnodup
        ((mem_pair_flatMap _ _ _ _).mpr ⟨t, ht, Or.inr rfl⟩)
  · intro s hs
    rw [hlist, mem_pair_flatMap] at hs
    obtain ⟨t, ht, rfl | rfl⟩ := hs
    · exact ⟨t, ht, rfl⟩
    · exact ⟨t, ht, rfl⟩
  · have hcheck : (verifyBalance config none).run nodeBalance =
        [Effect.getBalance config.account] := by
      simp [verifyBalance, Async.run, andThen, halted, Effect.isExit, hb]
    unfold setupComplete
    simp only [hcheck, halted, List.any_cons, List.any_nil, Effect.isExit, Bool.or_self,
      Bool.false_eq_true, if_false]
    unfold Settings.topics at hfinal
    rw [hfinal]
    rfl

theorem halted_loop (symKeyID : String) (settings : Settings) :
    ∀ (remaining : List String) (shhOptions : ShhOptions),
      halted (setupComplete.loop symKeyID settings remaining shhOptions).2 = false := by
  intro remaining
  induction remaining with
  | nil => intro shhOptions; rfl
  | cons t rest ih =>
    intro shhOptions
    unfold setupComplete.loop
    split
    · rfl
    · have hrest := ih { shhOptions with topics := some [t] }
      unfold halted at hrest ⊢
      simp [serverListen, Effect.isExit, hrest]

/-- With a balance above 100000 the `setup:complete` listener runs to the end
of its loop without exiting. -/
theorem setupComplete_funded_not_halted (config : Config) (keys : Keys) (settings : Settings)
    (nodeBalance : Nat) (hfunds : 100000 < nodeBalance) :
    halted (setupComplete config keys settings nodeBalance).2 = false := by
  have hb : ¬ nodeBalance ≤ 100000 := Nat.not_le.mpr hfunds
  have hcheck : (verifyBalance config none).run nodeBalance =
      [Effect.getBalance config.account] := by
    simp [verifyBalance, Async.run, andThen, halted, Effect.isExit, hb]
  have hloop := halted_loop keys.symKeyID settings (settings.contracts.map Prod.fst)
    { initialShhOptions config with kId := some keys.kId }
  unfold setupComplete
  simp only [hcheck, halted, List.any_cons, List.any_nil, Effect.isExit, Bool.or_self,
    Bool.false_eq_true, if_false]
  unfold halted at hloop
  simp [Effect.isExit, hloop]

/-- With a balance at or below 100000 the `setup:complete` listener stops at
its awaited balance check: it queries the balance, logs the three lines and
exits with status 0, without clearing or opening any subscription and without
touching `shhOptions`. -/
theorem setupComplete_unfunded (config : Config) (keys : Keys) (settings : Settings)
    (nodeBalance : Nat) (hlow : nodeBalance ≤ 100000) :
    setupComplete config keys settings nodeBalance =
      (initialShhOptions config,
       [Effect.getBalance config.account,
        Effect.log "Not enough balance available for processing transactions",
        Effect.log ("> Account: " ++ config.account),
        Effect.log ("> Balance: " ++ toString nodeBalance),
        Effect.exit 0]) := by
  have hcheck : (verifyBalance config none).run nodeBalance =
      [Effect.getBalance config.account,
        Effect.log "Not enough balance available for processing transactions",
        Effect.log ("> Account: " ++ config.account),
        Effect.log ("> Balance: " ++ toString nodeBalance),
        Effect.exit 0] := by
    simp [verifyBalance, Async.run, andThen, halted, Effect.isExit, hlow]
  unfold setupComplete
  simp only [hcheck]
  simp [halted, Effect.isExit]

/-- C7 (amended): for a registry with n distinct topics, when the relayer
balance is above 100000 the `setup:complete` listener opens exactly 2n
subscriptions, for each topic `t` exactly one with the shared symmetric key
and exactly one with the relayer's private key, each with `topics = [t]`
although the shared `shhOptions.topics` ends as the last topic; when the
balance is at or below 100000 the listener exits with status 0 at its balance
check and opens no subscription. -/
theorem setupComplete_subscriptions (config : Config) (keys : Keys) (settings : Settings)
    (nodeBalance : Nat) (hdistinct : settings.topics.Nodup) :
    (100000 < nodeBalance →
      subscriptions (setupComplete config keys settings nodeBalance).2 =
        settings.topics.flatMap (fun t =>
          [symSubscription config keys t, privateSubscription config keys t]) ∧
      (subscriptions (setupComplete config keys settings nodeBalance).2).length =
        2 * settings.topics.length ∧
      (∀ t ∈ settings.topics,
        (subscriptions (setupComplete config keys settings nodeBalance).2).count
            (symSubscription config keys t) = 1 ∧
        (subscriptions (setupComplete config keys settings nodeBalance).2).count
            (privateSubscription config keys t) = 1) ∧
      (∀ s ∈ subscriptions (setupComplete config keys settings nodeBalance).2,
        ∃ t ∈ settings.topics, s.topics = some [t]) ∧
      (setupComplete config keys settings nodeBalance).1.topics =
        (match settings.topics.getLast? with
        | none => none
        | some t => some [t]) ∧
      halted (setupComplete config keys settings nodeBalance).2 = false) ∧
    (nodeBalance ≤ 100000 →
      subscriptions (setupComplete config keys settings nodeBalance).2 = [] ∧
      (setupComplete config keys settings nodeBalance).2 =
        [Effect.getBalance config.account,
         Effect.log "Not enough balance available for processing transactions",
         Effect.log ("> Account: " ++ config.account),
         Effect.log ("> Balance: " ++ toString nodeBalance),
         Effect.exit 0] ∧
      (setupComplete config keys settings nodeBalance).1 = initialShhOptions config) := by
  constructor
  · intro hfunds
    obtain ⟨h1, h2, h3, h4, h5⟩ :=
      setupComplete_funded config keys settings nodeBalance hfunds hdistinct
    exact ⟨h1, h2, h3, h4, h5,
      setupComplete_funded_not_halted config keys settings nodeBalance hfunds⟩
  · intro hlow
    rw [setupComplete_unfunded config keys settings nodeBalance hlow]
    exact ⟨rfl, rfl, rfl⟩

theorem setupComplete_subscriptions_witness :
    Example.settings.topics.Nodup ∧
    subscriptions (setupComplete Example.config Example.keys Example.settings 100001).2 =
      [symSubscription Example.config Example.keys "0x534e5443",
       privateSubscription Example.config Example.keys "0x534e5443",
       symSubscription Example.config Example.keys "0x4e4f5449",
       privateSubscription Example.config Example.keys "0x4e4f5449"] ∧
    subscriptions (setupComplete Example.config Example.keys Example.settings 100000).2 = [] :=
  ⟨by decide,
    ((setupComplete_subscriptions Example.config Example.keys Example.settings 100001
      (by decide)).1 (by decide)).1,
    ((setupComplete_subscriptions Example.config Example.keys Example.settings 100000
      (by decide)).2 (by decide)).1⟩

/-- C8: for a delivered message whose decoded action is `transaction`, the
`switch` makes the single call `processor.process(contract, input, reply)` with
the descriptor of the topic of the message, the decoded request and the reply
closure of the message; the callback calls the processor once and posts
nothing itself. -/
theorem transaction_calls_processor_once (config : Config) (shhOptions : ShhOptions)
    (settings : Settings) (message : Message)
    (h : (extractInput message).1.action = JsVal.str "transaction") :
    dispatch settings message (extractInput message).1 =
      [Call.process (settings.getContractByTopic message.topic)
        (extractInput message).1 message] ∧
    (onMessage config shhOptions settings (.ok message)).now =
      Effect.getBalance config.account :: ((extractInput message).2 ++
        [Effect.process (settings.getContractByTopic message.topic)
          (extractInput message).1 message]) ∧
    processCalls (onMessage config shhOptions settings (.ok message)).now =
      [Effect.process (settings.getContractByTopic message.topic)
        (extractInput message).1 message] ∧
    posts (onMessage config shhOptions settings (.ok message)).now = [] := by
  have hd : dispatch settings message (extractInput message).1 =
      [Call.process (settings.getContractByTopic message.topic)
        (extractInput message).1 message] := by
    simp [dispatch, h, JsVal.strictEq]
  have hnow := onMessage_now config shhOptions settings message
  rw [hd] at hnow
  simp only [List.flatMap_cons, List.flatMap_nil, Call.perform, List.append_nil] at hnow
  refine ⟨hd, hnow, ?_, ?_⟩
  · rw [hnow]
    have hx := processCalls_extractInput message
    unfold processCalls at hx ⊢
    simp [List.filter_cons, Effect.isProcess, hx]
  · rw [hnow]
    have hx := posts_extractInput message
    unfold posts at hx ⊢
    simp [List.filterMap_cons, Effect.posted, hx]

theorem transaction_calls_processor_once_witness :
    (extractInput Example.transfer).1.action = JsVal.str "transaction" ∧
    dispatch Example.settings Example.transfer (extractInput Example.transfer).1 =
      [Call.process (Example.settings.getContractByTopic Example.transfer.topic)
        (extractInput Example.transfer).1 Example.transfer] ∧
    (onMessage Example.config Example.shhOptions Example.settings (.ok Example.transfer)).now =
      Effect.getBalance Example.config.account :: ((extractInput Example.transfer).2 ++
        [Effect.process (Example.settings.getContractByTopic Example.transfer.topic)
          (extractInput Example.transfer).1 Example.transfer]) ∧
    processCalls
        (onMessage Example.config Example.shhOptions Example.settings (.ok Example.transfer)).now =
      [Effect.process (Example.settings.getContractByTopic Example.transfer.topic)
        (extractInput Example.transfer).1 Example.transfer] ∧
    posts
      (onMessage Example.config Example.shhOptions Example.settings (.ok Example.transfer)).now
      = [] :=
  ⟨rfl, transaction_calls_processor_once Example.config Example.shhOptions Example.settings
    Example.transfer rfl⟩

/-- C9: for a message with a sender key whose decoded action is neither the
string `transaction` nor the string `availability`, the `switch` makes the
single call `reply("unknown-action")`; the callback posts exactly one reply,
whose `message` is `unknown-action`, and does not call the processor. -/
theorem other_action_replies_unknown_action (config : Config) (shhOptions : ShhOptions)
    (settings : Settings) (message : Message) (sender : String)
    (hsig : message.sig = some sender)
    (ht : (extractInput message).1.action ≠ JsVal.str "transaction")
    (ha : (extractInput message).1.action ≠ JsVal.str "availability") :
    dispatch settings message (extractInput message).1 =
      [Call.reply "unknown-action" JsVal.undefined] ∧
    posts (onMessage config shhOptions settings (.ok message)).now =
      [{ pubKey := sender, sig := shhOptions.kId, ttl := config.ttl
         powTarget := config.minPow, powTime := config.powTime, topic := message.topic
         payload := Hex.fromAscii "\x7b\n \"message\": \"unknown-action\"\n\x7d" }] ∧
    processCalls (onMessage config shhOptions settings (.ok message)).now = [] := by
  have hd : dispatch settings message (extractInput message).1 =
      [Call.reply "unknown-action" JsVal.undefined] := by
    simp [dispatch, (strictEq_eq_false_iff _ _).mpr ht, (strictEq_eq_false_iff _ _).mpr ha]
  have hnow := onMessage_now config shhOptions settings message
  rw [hd] at hnow
  simp only [List.flatMap_cons, List.flatMap_nil, Call.perform, List.append_nil,
    replyFunction_signed config shhOptions message sender hsig] at hnow
  have htext : Json.stringify
      [("message", JsVal.str "unknown-action"), ("receipt", JsVal.undefined)] " " =
      "\x7b\n \"message\": \"unknown-action\"\n\x7d" := by decide
  rw [htext] at hnow
  refine ⟨hd, ?_, ?_⟩
  · rw [hnow]
    have hx := posts_extractInput message
    unfold posts at hx ⊢
    simp [List.filterMap_cons, List.filterMap_append, Effect.posted, hx]
  · rw [hnow]
    have hx := processCalls_extractInput message
    unfold processCalls at hx ⊢
    simp [List.filter_cons, List.filter_append, Effect.isProcess, hx]

theorem other_action_replies_unknown_action_witness :
    Example.unknown.sig = some "0x04cc" ∧
    (extractInput Example.unknown).1.action ≠ JsVal.str "transaction" ∧
    (extractInput Example.unknown).1.action ≠ JsVal.str "availability" ∧
    dispatch Example.settings Example.unknown (extractInput Example.unknown).1 =
      [Call.reply "unknown-action" JsVal.undefined] ∧
    posts (onMessage Example.config Example.shhOptions Example.settings
        (.ok Example.unknown)).now =
      [{ pubKey := "0x04cc", sig := Example.shhOptions.kId, ttl := Example.config.ttl
         powTarget := Example.config.minPow, powTime := Example.config.powTime
         topic := Example.unknown.topic
         payload := Hex.fromAscii "\x7b\n \"message\": \"unknown-action\"\n\x7d" }] ∧
    processCalls (onMessage Example.config Example.shhOptions Example.settings
        (.ok Example.unknown)).now = [] :=
  have ht : (extractInput Example.unknown).1.action ≠ JsVal.str "transaction" := by
    simp [extractInput, extractInput.tryBlock, Example.unknown, JsVal.get, JsVal.own,
      JsVal.looseEq]
  have ha : (extractInput Example.unknown).1.action ≠ JsVal.str "availability" := by
    simp [extractInput, extractInput.tryBlock, Example.unknown, JsVal.get, JsVal.own,
      JsVal.looseEq]
  ⟨rfl, ht, ha, other_action_replies_unknown_action Example.config Example.shhOptions
    Example.settings Example.unknown "0x04cc" rfl ht ha⟩

/-- C10: for a message whose decoded action is `availability`, whatever the
decoded `token` and `gasPrice`, the `switch` makes the single call
`reply("available")`: the callback consists of the balance query, the
decoder and that one call of the reply closure, and does not call the
processor. -/
theorem availability_replies_available (config : Config) (shhOptions : ShhOptions)
    (settings : Settings) (message : Message)
    (h : (extractInput message).1.action = JsVal.str "availability") :
    dispatch settings message (extractInput message).1 =
      [Call.reply "available" JsVal.undefined] ∧
    (onMessage config shhOptions settings (.ok message)).now =
      Effect.getBalance config.account :: ((extractInput message).2 ++
        replyFunction config shhOptions message "available" JsVal.undefined) ∧
    processCalls (onMessage config shhOptions settings (.ok message)).now = [] := by
  have hd : dispatch settings message (extractInput message).1 =
      [Call.reply "available" JsVal.undefined] := by
    simp [dispatch, h, JsVal.strictEq]
  have hnow := onMessage_now config shhOptions settings message
  rw [hd] at hnow
  simp only [List.flatMap_cons, List.flatMap_nil, Call.perform, List.append_nil] at hnow
  refine ⟨hd, hnow, ?_⟩
  rw [hnow]
  have hx := processCalls_extractInput message
  have hr := processCalls_replyFunction config shhOptions message "available" JsVal.undefined
  unfold processCalls at hx hr ⊢
  simp [List.filter_cons, List.filter_append, Effect.isProcess, hx, hr]

theorem availability_replies_available_witness :
    (extractInput Example.probe).1.action = JsVal.str "availability" ∧
    dispatch Example.settings Example.probe (extractInput Example.probe).1 =
      [Call.reply "available" JsVal.undefined] ∧
    (onMessage Example.config Example.shhOptions Example.settings (.ok Example.probe)).now =
      Effect.getBalance Example.config.account :: ((extractInput Example.probe).2 ++
        replyFunction Example.config Example.shhOptions Example.probe "available"
          JsVal.undefined) ∧
    processCalls (onMessage Example.config Example.shhOptions Example.settings
      (.ok Example.probe)).now = [] :=
  ⟨rfl, availability_replies_available Example.config Example.shhOptions Example.settings
    Example.probe rfl⟩

end GasRelayer
